import Mathlib

/-!
Verification of the `my_inbox` local mailbox store
(`src/my_inbox_impl/src/my_inbox_impl/_impl.py` and `mail_fetcher.py`).

The development shallowly embeds the Python code:

* bytes are `List (Fin 256)`;
* `bytes.hex` / `bytes.fromhex` are `bytesHex` / `fromhex`;
* `MessageImpl` / `AttachmentImpl` are the structures `Message` /
  `AttachmentRec`, and the dictionaries produced by `to_dict` /
  consumed by `from_dict` are `MsgDict` / `AttachmentDict`;
* the client state (`_folders`, `_messages`, and the per-folder JSON
  files on disk) is the structure `ClientState`; mutating methods
  return the new state explicitly, and a raised `ValueError` is the
  `Except.error` branch (carrying a `StoreError` that records which
  check fired, standing for the Python exception message);
* `datetime.strptime` on the four concrete format strings used by
  `safe_date_key` is modelled by four parsers over `List Char`
  producing a civil datetime plus UTC offset, and aware-`datetime`
  comparison after `astimezone(utc)` is comparison of the absolute
  instant in seconds (`toUTCSeconds`);
* `sorted(_, key, reverse := True)` is `List.insertionSort` with the
  relation "key not smaller", which is the unique stable descending
  sort that Python's stable sort implements.
-/

set_option maxHeartbeats 1000000

namespace MyInbox

/-! ## Bytes and hex encoding (`bytes.hex` / `bytes.fromhex`) -/

/-- One lowercase hex digit, as produced by Python's `bytes.hex`. -/
def hexDigitChar (n : Nat) : Char :=
  if n < 10 then Char.ofNat (48 + n) else Char.ofNat (87 + n)

/-- Value of a hex digit accepted by `bytes.fromhex` (both cases). -/
def hexCharVal (c : Char) : Option (Fin 16) :=
  if h : 48 ≤ c.toNat ∧ c.toNat ≤ 57 then some ⟨c.toNat - 48, by omega⟩
  else if h : 97 ≤ c.toNat ∧ c.toNat ≤ 102 then some ⟨c.toNat - 87, by omega⟩
  else if h : 65 ≤ c.toNat ∧ c.toNat ≤ 70 then some ⟨c.toNat - 55, by omega⟩
  else none

/-- The two hex digits of one byte (`b.hex()` emits lowercase, high nibble first). -/
def byteToHex (b : Fin 256) : List Char :=
  [hexDigitChar (b.val / 16), hexDigitChar (b.val % 16)]

/-- Model of `bytes.hex()`: concatenation of the two-digit codes of each byte. -/
def bytesHex (bs : List (Fin 256)) : String :=
  ⟨(bs.map byteToHex).flatten⟩

/-- Model of `bytes.fromhex`: pairs of hex digits, ASCII spaces between bytes skipped,
    anything else fails (Python raises `ValueError`). -/
def fromhex : List Char → Option (List (Fin 256))
  | [] => some []
  | c :: rest =>
    if c = ' ' then fromhex rest
    else
      match rest with
      | [] => none
      | c2 :: rest2 => do
        let h ← hexCharVal c
        let l ← hexCharVal c2
        let bs ← fromhex rest2
        pure (⟨h.val * 16 + l.val, by omega⟩ :: bs)

/-! ## The record types (`AttachmentImpl`, `MessageImpl`) and their dict forms -/

/-- Model of `AttachmentImpl`: filename, MIME content type, raw byte content. -/
structure AttachmentRec where
  filename : String
  content_type : String
  content : List (Fin 256)
deriving DecidableEq

/-- Model of `MessageImpl`: the canonical in-memory message record.  The `date`
    is stored as the free-form string it was constructed with. -/
structure Message where
  id : String
  from_ : String
  to_ : String
  cc : Option String
  bcc : Option String
  date : String
  subject : String
  body : String
  is_read : Bool
  attachments : List AttachmentRec
deriving DecidableEq

/-- Attachment entry of the persisted dictionary: content hex-encoded. -/
structure AttachmentDict where
  filename : String
  content_type : String
  content : String
deriving DecidableEq

/-- The dictionary produced by `MessageImpl.to_dict` (the persisted JSON
    schema).  `to_dict` always emits a string `date`, so `date` is a
    `String` here. -/
structure MsgDict where
  id : String
  from_ : String
  to_ : String
  cc : Option String
  bcc : Option String
  date : String
  subject : String
  body : String
  is_read : Bool
  attachments : List AttachmentDict
deriving DecidableEq

/-- One entry of the `attachments` list built by `to_dict`:
    `content` is hex-encoded by `bytes.hex()`. -/
def attachmentToDict (a : AttachmentRec) : AttachmentDict :=
  { filename := a.filename
    content_type := a.content_type
    content := bytesHex a.content }

/-- One iteration of the `from_dict` attachment loop:
    `bytes.fromhex` on the stored hex string (raising = `none`). -/
def attachmentFromDict (a : AttachmentDict) : Option AttachmentRec :=
  (fromhex a.content.toList).map fun bs =>
    { filename := a.filename, content_type := a.content_type, content := bs }

/-- Model of `MessageImpl.to_dict`. -/
def to_dict (m : Message) : MsgDict :=
  { id := m.id
    from_ := m.from_
    to_ := m.to_
    cc := m.cc
    bcc := m.bcc
    date := m.date
    subject := m.subject
    body := m.body
    is_read := m.is_read
    attachments := m.attachments.map attachmentToDict }

/-- Model of `MessageImpl.from_dict`.  `bytes.fromhex` can raise on a malformed hex
    string, hence the `Option`; on the output of `to_dict` it always
    succeeds. -/
def from_dict (d : MsgDict) : Option Message := do
  let atts ← d.attachments.mapM attachmentFromDict
  pure
    { id := d.id
      from_ := d.from_
      to_ := d.to_
      cc := d.cc
      bcc := d.bcc
      date := d.date
      subject := d.subject
      body := d.body
      is_read := d.is_read
      attachments := atts }

/-! ## Date parsing (`safe_date_key` in `ClientImpl.get_messages`)

`datetime.strptime` is modelled for the four concrete format strings the
code uses.  Following CPython's `_strptime`:

* `%a` / `%b` match the English abbreviations case-insensitively (the
  matched weekday is not cross-checked against the date);
* `%d` matches two digits in `01..31` or a single digit `1..9`;
* `%H` two digits `00..23` or one digit; `%M` two digits `00..59` or one
  digit; `%S` two digits `00..61` or one digit (a parsed value of 60/61
  then fails `datetime` construction, failing the whole format);
* `%Y` matches exactly four digits; year `0000` fails construction;
* `%z` matches `Z` or `[+-]HH[:]MM` with optional seconds (fractional
  seconds are not modelled); an absolute offset of 24h or more fails
  construction, failing the format;
* a space in the format matches one or more whitespace characters;
* the whole input must be consumed, and an invalid civil date
  (e.g. Feb 30) raises inside `strptime`, which the caller's
  `except ValueError` turns into trying the next format.

A parsed aware datetime is represented by its civil fields plus UTC
offset, and `astimezone(timezone.utc)` followed by comparison is
comparison of `toUTCSeconds` (the absolute instant). -/

/-- Whitespace as matched by the `\s` class in `strptime` patterns. -/
def wsChar (c : Char) : Bool :=
  c == ' ' || c == '\t' || c == '\n' || c == '\r' || c == '\x0b' || c == '\x0c'

/-- Drop a maximal run of whitespace. -/
def dropWS : List Char → List Char
  | [] => []
  | c :: rest => if wsChar c then dropWS rest else c :: rest

/-- Match `\s+`: at least one whitespace character, consumed greedily. -/
def skipWS1 : List Char → Option (List Char)
  | [] => none
  | c :: rest => if wsChar c then some (dropWS rest) else none

/-- Match one literal character. -/
def expectChar (c : Char) : List Char → Option (List Char)
  | [] => none
  | x :: rest => if x = c then some rest else none

/-- Strip a (lowercase) pattern case-insensitively. -/
def stripCI : List Char → List Char → Option (List Char)
  | [], cs => some cs
  | _ :: _, [] => none
  | p :: ps, c :: cs => if c.toLower = p then stripCI ps cs else none

/-- First table entry whose abbreviation matches, with its value. -/
def parseAbbrev (table : List (String × Nat)) (cs : List Char) : Option (Nat × List Char) :=
  match table with
  | [] => none
  | (pat, v) :: rest =>
    match stripCI pat.toList cs with
    | some cs2 => some (v, cs2)
    | none => parseAbbrev rest cs

/-- Format directive `%a`: an English weekday abbreviation (value unused by `strptime`
    for `datetime` construction). -/
def parseWeekday (cs : List Char) : Option (List Char) :=
  (parseAbbrev
    [("mon", 0), ("tue", 1), ("wed", 2), ("thu", 3), ("fri", 4), ("sat", 5), ("sun", 6)]
    cs).map Prod.snd

/-- Format directive `%b`: an English month abbreviation, value `1..12`. -/
def parseMonth (cs : List Char) : Option (Nat × List Char) :=
  parseAbbrev
    [("jan", 1), ("feb", 2), ("mar", 3), ("apr", 4), ("may", 5), ("jun", 6),
     ("jul", 7), ("aug", 8), ("sep", 9), ("oct", 10), ("nov", 11), ("dec", 12)]
    cs

/-- Two digits accepted by `two`, else one digit accepted by `one`
    (the shape of the `%d`/`%H`/`%M`/`%S` regexes, two-digit
    alternatives first). -/
def parseNum2 (two : Nat → Bool) (one : Nat → Bool) (cs : List Char) : Option (Nat × List Char) :=
  match cs with
  | [] => none
  | c1 :: rest1 =>
    if c1.isDigit then
      let d1 := c1.toNat - 48
      match rest1 with
      | c2 :: rest2 =>
        if c2.isDigit && two (d1 * 10 + (c2.toNat - 48)) then
          some (d1 * 10 + (c2.toNat - 48), rest2)
        else if one d1 then some (d1, rest1) else none
      | [] => if one d1 then some (d1, []) else none
    else none

/-- Format directive `%d`. -/
def parseDay (cs : List Char) : Option (Nat × List Char) :=
  parseNum2 (fun v => decide (1 ≤ v ∧ v ≤ 31)) (fun v => decide (1 ≤ v)) cs

/-- Format directive `%H`. -/
def parseHour (cs : List Char) : Option (Nat × List Char) :=
  parseNum2 (fun v => decide (v ≤ 23)) (fun _ => true) cs

/-- Format directive `%M`. -/
def parseMinute (cs : List Char) : Option (Nat × List Char) :=
  parseNum2 (fun v => decide (v ≤ 59)) (fun _ => true) cs

/-- Format directive `%S` (60/61 pass the regex and fail `datetime` construction later). -/
def parseSecond (cs : List Char) : Option (Nat × List Char) :=
  parseNum2 (fun v => decide (v ≤ 61)) (fun _ => true) cs

/-- Format directive `%Y`: exactly four digits. -/
def parseYear (cs : List Char) : Option (Nat × List Char) :=
  match cs with
  | a :: b :: c :: d :: rest =>
    if a.isDigit && b.isDigit && c.isDigit && d.isDigit then
      some ((a.toNat - 48) * 1000 + (b.toNat - 48) * 100 + (c.toNat - 48) * 10
        + (d.toNat - 48), rest)
    else none
  | _ => none

/-- Exactly two digits, e.g. the hour field of a `%z` offset. -/
def twoDigits (cs : List Char) : Option (Nat × List Char) :=
  match cs with
  | c1 :: c2 :: rest =>
    if c1.isDigit && c2.isDigit then
      some ((c1.toNat - 48) * 10 + (c2.toNat - 48), rest)
    else none
  | _ => none

/-- Regex class `[0-5]\d`: the minute (and second) field of a `%z` offset. -/
def sexagesimalPair (cs : List Char) : Option (Nat × List Char) :=
  match cs with
  | c1 :: c2 :: rest =>
    if c1.isDigit && c2.isDigit && decide (c1.toNat - 48 ≤ 5) then
      some ((c1.toNat - 48) * 10 + (c2.toNat - 48), rest)
    else none
  | _ => none

/-- Optional `:?[0-5]\d` seconds tail of a `%z` offset. -/
def offsetSeconds (cs : List Char) : Nat × List Char :=
  match cs with
  | ':' :: rest =>
    match sexagesimalPair rest with
    | some (v, rest2) => (v, rest2)
    | none => (0, cs)
  | _ =>
    match sexagesimalPair cs with
    | some (v, rest2) => (v, rest2)
    | none => (0, cs)

/-- Format directive `%z`: `Z`, or a signed `HH[:]MM[[:]SS]` offset; an absolute value of
    24 hours or more fails `timezone` construction and hence the whole
    format. Result in seconds east of UTC. -/
def parseOffset (cs : List Char) : Option (Int × List Char) :=
  match cs with
  | [] => none
  | 'Z' :: rest => some (0, rest)
  | s :: rest =>
    if s = '+' || s = '-' then do
      let (hh, r1) ← twoDigits rest
      let r2 := match r1 with
        | ':' :: r => r
        | r => r
      let (mm, r3) ← sexagesimalPair r2
      let (ss, r4) := offsetSeconds r3
      let total : Int := (hh * 3600 + mm * 60 + ss : Nat)
      if total < 86400 then
        some (if s = '-' then -total else total, r4)
      else none
    else none

/-- A parsed datetime: civil fields plus UTC offset in seconds
    (`0` for the naive forms the code pins to UTC). -/
structure ParsedDT where
  year : Nat
  month : Nat
  day : Nat
  hour : Nat
  minute : Nat
  second : Nat
  offsetSecs : Int
deriving DecidableEq

/-- Gregorian leap year, as used by `datetime`. -/
def isLeapYear (y : Nat) : Bool :=
  y % 4 == 0 && (y % 100 != 0 || y % 400 == 0)

/-- Length of a month. -/
def daysInMonth (y m : Nat) : Nat :=
  if m = 2 then (if isLeapYear y then 29 else 28)
  else if m = 4 || m = 6 || m = 9 || m = 11 then 30
  else 31

/-- The checks `datetime.__new__` performs on the parsed fields; a
    failure raises `ValueError` inside `strptime`. -/
def validDT (dt : ParsedDT) : Bool :=
  decide (1 ≤ dt.year) && decide (1 ≤ dt.month) && decide (dt.month ≤ 12) &&
  decide (1 ≤ dt.day) && decide (dt.day ≤ daysInMonth dt.year dt.month) &&
  decide (dt.hour ≤ 23) && decide (dt.minute ≤ 59) && decide (dt.second ≤ 59)

/-- Days between a civil date and 1970-01-01 (Howard Hinnant's
    `days_from_civil`, specialised to years `≥ 1`). -/
def daysFromCivil (y m d : Nat) : Int :=
  let yy : Nat := if m ≤ 2 then y - 1 else y
  let era : Nat := yy / 400
  let yoe : Nat := yy % 400
  let mp : Nat := (m + 9) % 12
  let doy : Nat := (153 * mp + 2) / 5 + d - 1
  let doe : Nat := yoe * 365 + yoe / 4 - yoe / 100 + doy
  (era * 146097 + doe : Int) - 719468

/-- The absolute instant of an aware datetime, in seconds since the
    epoch.  `dt.astimezone(timezone.utc)` keeps the instant, and
    comparison of aware datetimes is comparison of instants, so this is
    the sort key. -/
def toUTCSeconds (dt : ParsedDT) : Int :=
  daysFromCivil dt.year dt.month dt.day * 86400
    + (dt.hour * 3600 + dt.minute * 60 + dt.second : Nat) - dt.offsetSecs

/-- The `%d %b %Y %H:%M:%S` core shared by all four formats. -/
def parseDMYHMS (cs : List Char) : Option (ParsedDT × List Char) := do
  let (d, cs) ← parseDay cs
  let cs ← skipWS1 cs
  let (mo, cs) ← parseMonth cs
  let cs ← skipWS1 cs
  let (y, cs) ← parseYear cs
  let cs ← skipWS1 cs
  let (h, cs) ← parseHour cs
  let cs ← expectChar ':' cs
  let (mi, cs) ← parseMinute cs
  let cs ← expectChar ':' cs
  let (sec, cs) ← parseSecond cs
  pure (⟨y, mo, d, h, mi, sec, 0⟩, cs)

/-- Model of `strptime(s, "%a, %d %b %Y %H:%M:%S %z")` followed by
    `astimezone(utc)` (format 1 of the chain). -/
def parseFmt1 (s : String) : Option ParsedDT := do
  let cs := s.toList
  let cs ← parseWeekday cs
  let cs ← expectChar ',' cs
  let cs ← skipWS1 cs
  let (dt, cs) ← parseDMYHMS cs
  let cs ← skipWS1 cs
  let (off, cs) ← parseOffset cs
  if cs.isEmpty && validDT dt then some { dt with offsetSecs := off } else none

/-- Model of `strptime(s, "%a, %d %b %Y %H:%M:%S +0000")` (format 2; the literal
    `+0000` tail denotes UTC, so the instant equals the naive fields read
    as UTC). -/
def parseFmt2 (s : String) : Option ParsedDT := do
  let cs := s.toList
  let cs ← parseWeekday cs
  let cs ← expectChar ',' cs
  let cs ← skipWS1 cs
  let (dt, cs) ← parseDMYHMS cs
  let cs ← skipWS1 cs
  let cs ← expectChar '+' cs
  let cs ← expectChar '0' cs
  let cs ← expectChar '0' cs
  let cs ← expectChar '0' cs
  let cs ← expectChar '0' cs
  if cs.isEmpty && validDT dt then some dt else none

/-- Model of `strptime(s, "%a, %d %b %Y %H:%M:%S")` followed by
    `replace(tzinfo=utc)` (format 3: naive, pinned to UTC). -/
def parseFmt3 (s : String) : Option ParsedDT := do
  let cs := s.toList
  let cs ← parseWeekday cs
  let cs ← expectChar ',' cs
  let cs ← skipWS1 cs
  let (dt, cs) ← parseDMYHMS cs
  if cs.isEmpty && validDT dt then some dt else none

/-- Model of `strptime(s, "%d %b %Y %H:%M:%S %z")` followed by `astimezone(utc)`
    (format 4: no weekday). -/
def parseFmt4 (s : String) : Option ParsedDT := do
  let cs := s.toList
  let (dt, cs) ← parseDMYHMS cs
  let cs ← skipWS1 cs
  let (off, cs) ← parseOffset cs
  if cs.isEmpty && validDT dt then some { dt with offsetSecs := off } else none

/-- The fallback chain of `safe_date_key`, as a parser: first format
    that succeeds wins. -/
def parseChain (s : String) : Option ParsedDT :=
  match parseFmt1 s with
  | some dt => some dt
  | none =>
    match parseFmt2 s with
    | some dt => some dt
    | none =>
      match parseFmt3 s with
      | some dt => some dt
      | none => parseFmt4 s

/-- Model of `safe_date_key` (the nested `try`/`except ValueError` ladder inside
    `ClientImpl.get_messages`): the sort key of a message date, given
    `now` = `datetime.now(timezone.utc)` as an absolute second count. -/
def safe_date_key (now : Int) (date : String) : Int :=
  match parseFmt1 date with
  | some dt => toUTCSeconds dt
  | none =>
    match parseFmt2 date with
    | some dt => toUTCSeconds dt
    | none =>
      match parseFmt3 date with
      | some dt => toUTCSeconds dt
      | none =>
        match parseFmt4 date with
        | some dt => toUTCSeconds dt
        | none => now

/-! ## The client (`ClientImpl`)

State = tracked folder list, the `folder -> list of messages` dict, and
the on-disk JSON files (`{data_dir}/{folder}/{id}.json`, keyed here by
`(folder, id)`).  Python-dict assignment / deletion is `setAssoc` /
`delAssoc` on an association list (replace-in-place or append, as a
dict preserves key insertion order).  A raised `ValueError` is an
`Except.error` carrying which check fired. -/

/-- The `ValueError`s raised by the folder checks. -/
inductive StoreError where
  | unknownFolder (name : String)
  | unknownSourceFolder (name : String)
  | unknownTargetFolder (name : String)
  | folderExists (name : String)
deriving DecidableEq

/-- First value for a key, like `dict.get`. -/
def getAssoc {κ β : Type} [DecidableEq κ] (k : κ) : List (κ × β) → Option β
  | [] => none
  | (k2, v) :: rest => if k2 = k then some v else getAssoc k rest

/-- Assignment `dict[k] = v`: replace in place, or append a new binding. -/
def setAssoc {κ β : Type} [DecidableEq κ] (k : κ) (v : β) : List (κ × β) → List (κ × β)
  | [] => [(k, v)]
  | (k2, v2) :: rest => if k2 = k then (k, v) :: rest else (k2, v2) :: setAssoc k v rest

/-- Remove a key's binding (no-op when absent: the code removes files
    only behind an existence check). -/
def delAssoc {κ β : Type} [DecidableEq κ] (k : κ) : List (κ × β) → List (κ × β)
  | [] => []
  | (k2, v2) :: rest => if k2 = k then rest else (k2, v2) :: delAssoc k rest

/-- The state of a `ClientImpl`. -/
structure ClientState where
  folders : List String
  messages : List (String × List Message)
  disk : List ((String × String) × MsgDict)
deriving DecidableEq

/-- Model of `self._messages.get(folder, [])`. -/
def msgsOf (st : ClientState) (folder : String) : List Message :=
  (getAssoc folder st.messages).getD []

/-- The five default folders created by `__init__`. -/
def defaultFolders : List String := ["INBOX", "Sent", "Drafts", "Trash", "Archive"]

/-- A client constructed over an empty data directory: default folders,
    every collection empty, no files. -/
def initialState : ClientState :=
  { folders := defaultFolders
    messages := defaultFolders.map fun f => (f, [])
    disk := [] }

/-- "key a is at least key b": the relation under which
    `sorted(_, key=safe_date_key, reverse=True)` orders the list.
    `List.insertionSort` with this relation is the stable descending
    sort that Python's stable `sorted` implements. -/
def keyGe (now : Int) (a b : Message) : Prop :=
  safe_date_key now b.date ≤ safe_date_key now a.date

instance (now : Int) : DecidableRel (keyGe now) := fun _ _ => Int.decLe _ _

instance (now : Int) : IsTotal Message (keyGe now) := ⟨fun _ _ => le_total _ _⟩

instance (now : Int) : IsTrans Message (keyGe now) :=
  ⟨fun _ _ _ h1 h2 => le_trans h2 h1⟩

/-- Model of `ClientImpl.get_messages` (the generator is returned as the list it
    yields).  `now` is the wall-clock instant used by the fallback of
    `safe_date_key`; `limit` is assumed non-negative. -/
def get_messages (st : ClientState) (now : Int) (limit : Option Nat) (folder : String) :
    Except StoreError (List Message) :=
  if folder ∈ st.folders then
    Except.ok
      (match limit with
       | some n => (List.insertionSort (keyGe now) (msgsOf st folder)).take n
       | none => List.insertionSort (keyGe now) (msgsOf st folder))
  else Except.error (.unknownFolder folder)

/-- Model of `str.lower`, for the ASCII range the tests exercise. -/
def lower (s : String) : String := ⟨s.toList.map Char.toLower⟩

/-- Model of the Python `sub in s` substring test. -/
def containsSub (q : List Char) : List Char → Bool
  | [] => q.isEmpty
  | c :: rest => q.isPrefixOf (c :: rest) || containsSub q rest

/-- The per-message condition of `search_messages`, with `ql` the
    already-lowercased query (the code lowercases `query` once up front
    and lowercases it again in the id comparison). -/
def matchesQuery (ql : String) (m : Message) : Bool :=
  containsSub ql.toList (lower m.subject).toList ||
  containsSub ql.toList (lower m.body).toList ||
  containsSub ql.toList (lower m.from_).toList ||
  containsSub ql.toList (lower m.to_).toList ||
  lower m.id == lower ql

/-- Model of `ClientImpl.search_messages`: yields, in storage order, the messages
    matching the query. -/
def search_messages (st : ClientState) (query folder : String) :
    Except StoreError (List Message) :=
  if folder ∈ st.folders then
    Except.ok ((msgsOf st folder).filter (matchesQuery (lower query)))
  else Except.error (.unknownFolder folder)

/-- Model of `ClientImpl.add_message`: append to the folder's collection and
    write `{id}.json` (overwriting any file of that name). -/
def add_message (st : ClientState) (m : Message) (folder : String) :
    Except StoreError ClientState :=
  if folder ∈ st.folders then
    Except.ok
      { st with
        messages := setAssoc folder (msgsOf st folder ++ [m]) st.messages
        disk := setAssoc (folder, m.id) (to_dict m) st.disk }
  else Except.error (.unknownFolder folder)

/-- Model of `ClientImpl.create_folder` (directory creation is not modelled
    beyond the folder becoming tracked). -/
def create_folder (st : ClientState) (name : String) : Except StoreError ClientState :=
  if name ∈ st.folders then Except.error (.folderExists name)
  else
    Except.ok
      { st with
        folders := st.folders ++ [name]
        messages := setAssoc name [] st.messages }

/-- The `enumerate`-and-`del` loop of `delete_message`: list with the
    first message of the given id removed, `none` when no id matches. -/
def removeFirstById (mid : String) : List Message → Option (List Message)
  | [] => none
  | m :: rest =>
    if m.id = mid then some rest
    else (removeFirstById mid rest).map (m :: ·)

/-- The `enumerate`-and-`pop` loop of `move_message`: the first message
    of the given id together with the remaining list. -/
def popFirstById (mid : String) : List Message → Option (Message × List Message)
  | [] => none
  | m :: rest =>
    if m.id = mid then some (m, rest)
    else (popFirstById mid rest).map fun p => (p.1, m :: p.2)

/-- Model of `ClientImpl.move_message`: pop the first matching message from the
    source collection, append it to the target collection, rename the
    backing file (or write a fresh one if the source file is missing). -/
def move_message (st : ClientState) (mid source target : String) :
    Except StoreError (Bool × ClientState) :=
  if source ∉ st.folders then Except.error (.unknownSourceFolder source)
  else if target ∉ st.folders then Except.error (.unknownTargetFolder target)
  else
    match popFirstById mid (msgsOf st source) with
    | none => Except.ok (false, st)
    | some (m, rest) =>
      Except.ok (true,
        { st with
          messages :=
            setAssoc target ((getAssoc target (setAssoc source rest st.messages)).getD [] ++ [m])
              (setAssoc source rest st.messages)
          disk :=
            match getAssoc (source, mid) st.disk with
            | some d => setAssoc (target, mid) d (delAssoc (source, mid) st.disk)
            | none => setAssoc (target, mid) (to_dict m) st.disk })

/-- Model of `ClientImpl.delete_message`: on a non-Trash folder, delegate to
    `move_message(mid, folder, "Trash")`; on Trash, drop the first
    matching message from memory and remove its file. -/
def delete_message (st : ClientState) (mid folder : String) :
    Except StoreError (Bool × ClientState) :=
  if folder ∉ st.folders then Except.error (.unknownFolder folder)
  else if folder ≠ "Trash" then move_message st mid folder "Trash"
  else
    match removeFirstById mid (msgsOf st folder) with
    | none => Except.ok (false, st)
    | some rest =>
      Except.ok (true,
        { st with
          messages := setAssoc folder rest st.messages
          disk := delAssoc (folder, mid) st.disk })

/-! ## Helper lemmas -/

deriving instance DecidableEq for Except

/-! ## Witness fixtures -/

/-- A message with no attachments, for concrete instances. -/
def mkMsg (i subj bod sender rcpt dt : String) : Message :=
  { id := i, from_ := sender, to_ := rcpt, cc := none, bcc := none, date := dt,
    subject := subj, body := bod, is_read := false, attachments := [] }

/-- A fresh client whose `INBOX` collection is the given list. -/
def stWith (msgs : List Message) : ClientState :=
  { initialState with messages := setAssoc "INBOX" msgs initialState.messages }

def mAbcd : Message := mkMsg "m1" "abcd" "hello there" "alice" "bob" "d1"

def mIdAbc : Message := mkMsg "ABC" "other" "body" "carol" "dave" "d2"

def mXabc : Message := mkMsg "xabc" "none" "text" "erin" "frank" "d3"

/-! ## C5: search semantics -/

/-- The search condition exactly as the spec words it: lowercased query
    a substring of the lowercased subject, body, sender or recipient, or
    the lowercased id equal to the lowercased query. -/
def matchesSpec (q : String) (m : Message) : Bool :=
  containsSub (lower q).toList (lower m.subject).toList ||
  containsSub (lower q).toList (lower m.body).toList ||
  containsSub (lower q).toList (lower m.from_).toList ||
  containsSub (lower q).toList (lower m.to_).toList ||
  lower m.id == lower q

def mD1 : Message := mkMsg "i1" "s1" "b" "f" "t" "Wed, 03 Jan 2024 00:00:00 +0000"

def mD2 : Message := mkMsg "i2" "s2" "b" "f" "t" "Tue, 02 Jan 2024 00:00:00 +0000"

def mD3 : Message := mkMsg "i3" "s3" "b" "f" "t" "Mon, 01 Jan 2024 00:00:00 +0000"

def mBadDate : Message := mkMsg "g" "s" "b" "x" "y" "not a date"

def mFuture : Message := mkMsg "f" "s" "b" "x" "y" "Fri, 01 Jan 9999 00:00:00 +0000"

def mOld : Message := mkMsg "o" "s" "b" "x" "y" "Thu, 01 Jan 1970 00:00:00 +0000"

/-! ## C8: id uniqueness -/

/-- Store states reachable from a fresh store by successful mutating
    calls. -/
inductive Reachable : ClientState → Prop
  | init : Reachable initialState
  | add (st st2 : ClientState) (m : Message) (f : String) :
      Reachable st → add_message st m f = .ok st2 → Reachable st2
  | create (st st2 : ClientState) (f : String) :
      Reachable st → create_folder st f = .ok st2 → Reachable st2
  | move (st st2 : ClientState) (mid s t : String) (b : Bool) :
      Reachable st → move_message st mid s t = .ok (b, st2) → Reachable st2
  | delete (st st2 : ClientState) (mid f : String) (b : Bool) :
      Reachable st → delete_message st mid f = .ok (b, st2) → Reachable st2

def mDup : Message := mkMsg "a" "s" "b" "x" "y" "d"

/-! ## C9: multipart body extraction (`IMAPFetcher._extract_content`) -/

/-- A leaf MIME part as the `walk()` loop of `_extract_content` sees it
    (container multipart parts are skipped).  `payload` is the raw
    `get_payload(decode=True)` bytes and `text` their decoded form under
    the part's charset; the byte-level decode is abstracted. -/
structure MimePart where
  content_type : String
  disposition : String
  filename : Option String
  payload : List (Fin 256)
  text : String
deriving DecidableEq

/-- A part is an attachment when it carries an explicit attachment
    disposition or its content type is neither plain text nor HTML. -/
def partIsAttachment (p : MimePart) : Bool :=
  containsSub "attachment".toList p.disposition.toList ||
  !(p.content_type == "text/plain" || p.content_type == "text/html")

/-- The `for part in email_message.walk()` loop over the leaf parts,
    with the body and attachment accumulators (a missing or empty
    filename gets the synthetic `attachment_{n}` name). -/
def extractLoop : List MimePart → String → List AttachmentRec → String × List AttachmentRec
  | [], body, atts => (body, atts)
  | p :: rest, body, atts =>
    if partIsAttachment p then
      extractLoop rest body
        (atts ++ [{ filename :=
                      match p.filename with
                      | some f =>
                        if f == "" then "attachment_" ++ toString atts.length else f
                      | none => "attachment_" ++ toString atts.length,
                    content_type := p.content_type, content := p.payload }])
    else if p.content_type == "text/plain" then
      extractLoop rest (body ++ p.text) atts
    else if p.content_type == "text/html" && body == "" then
      extractLoop rest (body ++ "[HTML Content]\n" ++ p.text) atts
    else
      extractLoop rest body atts

/-- Model of `_extract_content` on a multipart message with the given leaf
    parts. -/
def extract_content (parts : List MimePart) : String × List AttachmentRec :=
  extractLoop parts "" []

def htmlPartHi : MimePart :=
  { content_type := "text/html", disposition := "", filename := none,
    payload := [], text := "<p>Hi</p>" }

def plainPartHello : MimePart :=
  { content_type := "text/plain", disposition := "", filename := none,
    payload := [], text := "Hello" }

/-! ## Theorems -/

/-! ### Hex round-trip lemmas -/

theorem hexCharVal_hexDigitChar :
    ∀ n : Fin 16, hexCharVal (hexDigitChar n.val) = some n := by
  decide

theorem hexDigitChar_ne_space : ∀ n : Fin 16, hexDigitChar n.val ≠ ' ' := by
  decide

theorem fromhex_byteToHex (b : Fin 256) (rest : List Char) :
    fromhex (byteToHex b ++ rest) = (fromhex rest).map (b :: ·) := by
  have h1 := hexCharVal_hexDigitChar ⟨b.val / 16, by omega⟩
  have h2 := hexCharVal_hexDigitChar ⟨b.val % 16, by omega⟩
  have hs := hexDigitChar_ne_space ⟨b.val / 16, by omega⟩
  simp only [Fin.val_mk] at h1 h2 hs
  have hr : byteToHex b ++ rest
      = hexDigitChar (b.val / 16) :: hexDigitChar (b.val % 16) :: rest := rfl
  rw [hr]
  simp only [fromhex, if_neg hs, h1, h2, Option.bind_eq_bind, Option.some_bind]
  cases hf : fromhex rest with
  | none => rfl
  | some bs =>
    simp only [Option.some_bind, Option.map_some]
    have hb : (⟨b.val / 16 * 16 + b.val % 16, by omega⟩ : Fin 256) = b := by
      apply Fin.ext
      simp only [Fin.val_mk]
      omega
    rw [hb]
    rfl

theorem fromhex_bytesHex (bs : List (Fin 256)) :
    fromhex (bytesHex bs).toList = some bs := by
  suffices h : ∀ l : List (Fin 256), fromhex (l.map byteToHex).flatten = some l by
    simpa [bytesHex, String.toList] using h bs
  intro l
  induction l with
  | nil => rfl
  | cons b t ih =>
    simp only [List.map_cons, List.flatten_cons]
    rw [fromhex_byteToHex, ih]
    rfl

/-! ## C7: serialize / deserialize round trip -/

theorem attachmentFromDict_attachmentToDict (a : AttachmentRec) :
    attachmentFromDict (attachmentToDict a) = some a := by
  simp only [attachmentFromDict, attachmentToDict, fromhex_bytesHex]
  rfl

theorem mapM_attachment_roundtrip (as : List AttachmentRec) :
    (as.map attachmentToDict).mapM attachmentFromDict = some as := by
  induction as with
  | nil => rfl
  | cons a t ih =>
    simp only [List.map_cons, List.mapM_cons, attachmentFromDict_attachmentToDict, ih]
    rfl

/-- C7: for every Message, including one with attachments, serializing via
    `to_dict` and deserializing via `from_dict` yields a Message equal
    field-for-field to the original (id, from, to, cc, bcc, date, subject,
    body, is_read, and each attachment's filename, content type and exact
    byte content; hex-encoding is lossless). -/
theorem C7_to_dict_from_dict_roundtrip (m : Message) :
    from_dict (to_dict m) = some m := by
  simp only [from_dict, to_dict, mapM_attachment_roundtrip, Option.bind_eq_bind,
    Option.some_bind]
  rfl

theorem safe_date_key_eq_chain (now : Int) (date : String) :
    safe_date_key now date =
      match parseChain date with
      | some dt => toUTCSeconds dt
      | none => now := by
  unfold safe_date_key parseChain
  cases parseFmt1 date <;> cases parseFmt2 date <;> cases parseFmt3 date <;>
    cases parseFmt4 date <;> rfl

example : parseFmt1 "Mon, 01 Jan 2024 12:00:00 +0000"
    = some ⟨2024, 1, 1, 12, 0, 0, 0⟩ := by rfl

example : parseFmt1 "Mon, 01 Jan 2024 12:00:00 +0530"
    = some ⟨2024, 1, 1, 12, 0, 0, 19800⟩ := by rfl

example : parseFmt1 "Mon, 01 Jan 2024 12:00:00" = none := by rfl

example : parseFmt3 "Mon, 01 Jan 2024 12:00:00"
    = some ⟨2024, 1, 1, 12, 0, 0, 0⟩ := by rfl

example : parseFmt4 "01 Jan 2024 12:00:00 -0100"
    = some ⟨2024, 1, 1, 12, 0, 0, -3600⟩ := by rfl

example : parseChain "Thu, 30 Feb 2024 12:00:00 +0000" = none := by rfl

example : safe_date_key 777 "garbage" = 777 := by rfl

example : safe_date_key 0 "Thu, 01 Jan 1970 01:00:00 +0100" = 0 := by rfl

theorem toNat_ofNat_valid (n : Nat) (h : n.isValidChar) : (Char.ofNat n).toNat = n := by
  simp [Char.ofNat, h, Char.ofNatAux, Char.toNat, UInt32.toNat, BitVec.toNat_ofNatLt]

theorem toLower_idem (c : Char) : c.toLower.toLower = c.toLower := by
  have hdef : ∀ d : Char, d.toLower
      = if d.toNat ≥ 65 ∧ d.toNat ≤ 90 then Char.ofNat (d.toNat + 32) else d :=
    fun _ => rfl
  by_cases h : c.toNat ≥ 65 ∧ c.toNat ≤ 90
  · rw [hdef c, if_pos h]
    have hv : (c.toNat + 32).isValidChar := Or.inl (by omega)
    have ht : (Char.ofNat (c.toNat + 32)).toNat = c.toNat + 32 := toNat_ofNat_valid _ hv
    rw [hdef, ht, if_neg (by omega)]
  · rw [hdef c, if_neg h, hdef c, if_neg h]

theorem lower_idem (s : String) : lower (lower s) = lower s := by
  show String.mk ((s.toList.map Char.toLower).map Char.toLower)
      = String.mk (s.toList.map Char.toLower)
  rw [List.map_map]
  congr 1
  exact List.map_congr_left fun c _ => toLower_idem c

theorem containsSub_nil (l : List Char) : containsSub [] l = true := by
  cases l with
  | nil => rfl
  | cons c rest => simp [containsSub, List.isPrefixOf]

theorem getAssoc_set_self {κ β : Type} [DecidableEq κ] (k : κ) (v : β) (l : List (κ × β)) :
    getAssoc k (setAssoc k v l) = some v := by
  induction l with
  | nil => simp [setAssoc, getAssoc]
  | cons kv rest ih =>
    obtain ⟨k2, v2⟩ := kv
    by_cases h : k2 = k
    · simp [setAssoc, h, getAssoc]
    · simp [setAssoc, h, getAssoc, ih]

theorem getAssoc_set_ne {κ β : Type} [DecidableEq κ] {q k : κ} (h : q ≠ k) (v : β)
    (l : List (κ × β)) : getAssoc q (setAssoc k v l) = getAssoc q l := by
  induction l with
  | nil =>
    simp only [setAssoc, getAssoc]
    rw [if_neg (Ne.symm h)]
  | cons kv rest ih =>
    obtain ⟨k2, v2⟩ := kv
    by_cases h2 : k2 = k
    · subst h2
      simp only [setAssoc, if_pos rfl, getAssoc]
      rw [if_neg (Ne.symm h), if_neg (Ne.symm h)]
    · simp only [setAssoc, if_neg h2, getAssoc, ih]

theorem popFirstById_eq_none (mid : String) (l : List Message) :
    popFirstById mid l = none ↔ ∀ x ∈ l, x.id ≠ mid := by
  induction l with
  | nil => simp [popFirstById]
  | cons m rest ih =>
    by_cases h : m.id = mid
    · simp [popFirstById, h]
    · simp [popFirstById, h, ih, Option.map_eq_none']

theorem popFirstById_split (mid : String) (pre : List Message) (m : Message)
    (suf : List Message) (hpre : ∀ x ∈ pre, x.id ≠ mid) (hm : m.id = mid) :
    popFirstById mid (pre ++ m :: suf) = some (m, pre ++ suf) := by
  induction pre with
  | nil => simp [popFirstById, hm]
  | cons p rest ih =>
    have hp : p.id ≠ mid := hpre p (by simp)
    simp only [List.cons_append, popFirstById, if_neg hp, List.append_eq]
    rw [ih fun x hx => hpre x (by simp [hx])]
    rfl

theorem removeFirstById_eq_none (mid : String) (l : List Message) :
    removeFirstById mid l = none ↔ ∀ x ∈ l, x.id ≠ mid := by
  induction l with
  | nil => simp [removeFirstById]
  | cons m rest ih =>
    by_cases h : m.id = mid
    · simp [removeFirstById, h]
    · simp [removeFirstById, h, ih, Option.map_eq_none']

theorem removeFirstById_split (mid : String) (pre : List Message) (m : Message)
    (suf : List Message) (hpre : ∀ x ∈ pre, x.id ≠ mid) (hm : m.id = mid) :
    removeFirstById mid (pre ++ m :: suf) = some (pre ++ suf) := by
  induction pre with
  | nil => simp [removeFirstById, hm]
  | cons p rest ih =>
    have hp : p.id ≠ mid := hpre p (by simp)
    simp only [List.cons_append, removeFirstById, if_neg hp, List.append_eq]
    rw [ih fun x hx => hpre x (by simp [hx])]
    rfl

/-! ## C6: unknown folder -/

/-- C6: every operation given an untracked folder fails with the
    unknown-folder `ValueError`; for `move_message` an untracked source
    fails on the source check, and an untracked target on the target
    check once the source is tracked (an untracked source masks it).
    An `Except.error` result carries no successor state: the checks run
    before any in-memory or on-disk mutation, so the store is exactly as
    before the call. -/
theorem C6_unknown_folder (st : ClientState) (F : String) (h : F ∉ st.folders)
    (now : Int) (limit : Option Nat) (q mid : String) (m : Message) (T S : String) :
    get_messages st now limit F = .error (.unknownFolder F) ∧
    search_messages st q F = .error (.unknownFolder F) ∧
    add_message st m F = .error (.unknownFolder F) ∧
    delete_message st mid F = .error (.unknownFolder F) ∧
    move_message st mid F T = .error (.unknownSourceFolder F) ∧
    (S ∈ st.folders → move_message st mid S F = .error (.unknownTargetFolder F)) ∧
    (∃ e, move_message st mid S F = Except.error e) := by
  refine ⟨?_, ?_, ?_, ?_, ?_, ?_, ?_⟩
  · unfold get_messages
    rw [if_neg h]
  · unfold search_messages
    rw [if_neg h]
  · unfold add_message
    rw [if_neg h]
  · unfold delete_message
    rw [if_pos h]
  · unfold move_message
    rw [if_pos h]
  · intro hS
    unfold move_message
    rw [if_neg (not_not_intro hS), if_pos h]
  · by_cases hS : S ∈ st.folders
    · refine ⟨.unknownTargetFolder F, ?_⟩
      unfold move_message
      rw [if_neg (not_not_intro hS), if_pos h]
    · refine ⟨.unknownSourceFolder S, ?_⟩
      unfold move_message
      rw [if_pos hS]

theorem C6_unknown_folder_witness :
    ("Nope" ∉ initialState.folders) ∧ ("INBOX" ∈ initialState.folders) ∧
    (get_messages initialState 0 none "Nope" = .error (.unknownFolder "Nope") ∧
     search_messages initialState "q" "Nope" = .error (.unknownFolder "Nope") ∧
     add_message initialState mAbcd "Nope" = .error (.unknownFolder "Nope") ∧
     delete_message initialState "m1" "Nope" = .error (.unknownFolder "Nope") ∧
     move_message initialState "m1" "Nope" "INBOX" = .error (.unknownSourceFolder "Nope") ∧
     ("INBOX" ∈ initialState.folders →
       move_message initialState "m1" "INBOX" "Nope" = .error (.unknownTargetFolder "Nope")) ∧
     (∃ e, move_message initialState "m1" "INBOX" "Nope" = Except.error e)) :=
  ⟨by decide, by decide,
    C6_unknown_folder initialState "Nope" (by decide) 0 none "q" "m1" mAbcd "INBOX" "INBOX"⟩

theorem matchesQuery_lower (q : String) (m : Message) :
    matchesQuery (lower q) m = matchesSpec q m := by
  unfold matchesQuery matchesSpec
  rw [lower_idem]

/-- C5: `search_messages` yields exactly the messages whose lowercased
    subject, body, sender or recipient contains the lowercased query as
    a substring, or whose lowercased id equals the lowercased query, and
    yields them in folder storage order (the result is a sublist, not a
    date-sorted reordering). -/
theorem C5_search (st : ClientState) (q F : String) (h : F ∈ st.folders) :
    ∃ L, search_messages st q F = .ok L ∧
      L = (msgsOf st F).filter (matchesSpec q) ∧
      List.Sublist L (msgsOf st F) := by
  refine ⟨(msgsOf st F).filter (matchesQuery (lower q)), ?_, ?_, ?_⟩
  · unfold search_messages
    rw [if_pos h]
  · exact List.filter_congr fun m _ => matchesQuery_lower q m
  · exact List.filter_sublist _

theorem C5_search_witness :
    ("INBOX" ∈ (stWith [mAbcd, mIdAbc, mXabc]).folders) ∧
    search_messages (stWith [mAbcd, mIdAbc, mXabc]) "abc" "INBOX" = .ok [mAbcd, mIdAbc] ∧
    (∃ L, search_messages (stWith [mAbcd, mIdAbc, mXabc]) "abc" "INBOX" = .ok L ∧
      L = (msgsOf (stWith [mAbcd, mIdAbc, mXabc]) "INBOX").filter (matchesSpec "abc") ∧
      List.Sublist L (msgsOf (stWith [mAbcd, mIdAbc, mXabc]) "INBOX")) :=
  ⟨by decide, by decide, C5_search (stWith [mAbcd, mIdAbc, mXabc]) "abc" "INBOX" (by decide)⟩

/-! ## C10: the empty query -/

/-- C10: searching with the empty query yields every message of the
    folder, in storage order: the empty string is a substring of every
    subject, so the first disjunct of the match condition is always
    true. -/
theorem C10_empty_query (st : ClientState) (F : String) (h : F ∈ st.folders) :
    search_messages st "" F = .ok (msgsOf st F) := by
  unfold search_messages
  rw [if_pos h]
  congr 1
  apply List.filter_eq_self.mpr
  intro m _
  unfold matchesQuery
  have h0 : (lower "").toList = [] := rfl
  rw [h0, containsSub_nil]
  simp

theorem C10_empty_query_witness :
    ("INBOX" ∈ (stWith [mAbcd, mIdAbc]).folders) ∧
    search_messages (stWith [mAbcd, mIdAbc]) "" "INBOX"
      = .ok (msgsOf (stWith [mAbcd, mIdAbc]) "INBOX") :=
  ⟨by decide, C10_empty_query (stWith [mAbcd, mIdAbc]) "INBOX" (by decide)⟩

/-! ## C1: delete semantics -/

theorem msgsOf_mk (fs : List String) (ms : List (String × List Message))
    (dk : List ((String × String) × MsgDict)) (f : String) :
    msgsOf ⟨fs, ms, dk⟩ f = (getAssoc f ms).getD [] := rfl

/-- C1: deleting from a non-Trash tracked folder is exactly the move
    into Trash (the message leaves the folder unchanged and is appended
    to Trash's collection; the call returns `true` iff a message with
    the id was present), while deleting from Trash removes the first
    message with the id from the Trash collection and its backing file,
    re-places it in no folder, and returns `false` when no Trash message
    has the id. -/
theorem C1_delete (st : ClientState) (mid F : String)
    (hF : F ∈ st.folders) (hT : "Trash" ∈ st.folders) :
    (F ≠ "Trash" →
      delete_message st mid F = move_message st mid F "Trash" ∧
      ((∀ x ∈ msgsOf st F, x.id ≠ mid) → delete_message st mid F = .ok (false, st)) ∧
      (∀ pre m suf, msgsOf st F = pre ++ m :: suf → (∀ x ∈ pre, x.id ≠ mid) →
          m.id = mid →
        ∃ st2, delete_message st mid F = .ok (true, st2) ∧
          st2.folders = st.folders ∧
          msgsOf st2 F = pre ++ suf ∧
          msgsOf st2 "Trash" = msgsOf st "Trash" ++ [m] ∧
          ∀ g, g ≠ F → g ≠ "Trash" → msgsOf st2 g = msgsOf st g)) ∧
    (F = "Trash" →
      ((∀ x ∈ msgsOf st "Trash", x.id ≠ mid) →
        delete_message st mid "Trash" = .ok (false, st)) ∧
      (∀ pre m suf, msgsOf st "Trash" = pre ++ m :: suf → (∀ x ∈ pre, x.id ≠ mid) →
          m.id = mid →
        ∃ st2, delete_message st mid "Trash" = .ok (true, st2) ∧
          st2.folders = st.folders ∧
          msgsOf st2 "Trash" = pre ++ suf ∧
          (∀ g, g ≠ "Trash" → msgsOf st2 g = msgsOf st g) ∧
          st2.disk = delAssoc ("Trash", mid) st.disk)) := by
  constructor
  · intro hne
    have hdm : delete_message st mid F = move_message st mid F "Trash" := by
      unfold delete_message
      rw [if_neg (not_not_intro hF), if_pos hne]
    refine ⟨hdm, ?_, ?_⟩
    · intro habs
      rw [hdm]
      unfold move_message
      rw [if_neg (not_not_intro hF), if_neg (not_not_intro hT),
        (popFirstById_eq_none mid (msgsOf st F)).mpr habs]
    · intro pre m suf hsplit hpre hm
      rw [hdm]
      unfold move_message
      rw [if_neg (not_not_intro hF), if_neg (not_not_intro hT), hsplit,
        popFirstById_split mid pre m suf hpre hm]
      refine ⟨_, rfl, rfl, ?_, ?_, ?_⟩
      · rw [msgsOf_mk, getAssoc_set_ne hne, getAssoc_set_self]
        rfl
      · rw [msgsOf_mk, getAssoc_set_self]
        simp only [Option.getD_some]
        rw [getAssoc_set_ne (Ne.symm hne)]
        rfl
      · intro g hgF hgT
        rw [msgsOf_mk, getAssoc_set_ne hgT, getAssoc_set_ne hgF]
        rfl
  · intro hFT
    subst hFT
    refine ⟨?_, ?_⟩
    · intro habs
      unfold delete_message
      rw [if_neg (not_not_intro hT), if_neg (fun hh => hh rfl),
        (removeFirstById_eq_none mid (msgsOf st "Trash")).mpr habs]
    · intro pre m suf hsplit hpre hm
      unfold delete_message
      rw [if_neg (not_not_intro hT), if_neg (fun hh => hh rfl), hsplit,
        removeFirstById_split mid pre m suf hpre hm]
      refine ⟨_, rfl, rfl, ?_, ?_, rfl⟩
      · rw [msgsOf_mk, getAssoc_set_self]
        rfl
      · intro g hg
        rw [msgsOf_mk, getAssoc_set_ne hg]
        rfl

theorem C1_delete_witness :
    ("INBOX" ∈ (stWith [mAbcd]).folders) ∧ ("Trash" ∈ (stWith [mAbcd]).folders) ∧
    delete_message (stWith [mAbcd]) "m1" "INBOX"
      = move_message (stWith [mAbcd]) "m1" "INBOX" "Trash" ∧
    (∃ st2, delete_message (stWith [mAbcd]) "m1" "INBOX" = .ok (true, st2) ∧
      msgsOf st2 "INBOX" = [] ∧ msgsOf st2 "Trash" = [mAbcd]) := by
  have h := C1_delete (stWith [mAbcd]) "m1" "INBOX" (by decide) (by decide)
  obtain ⟨h1, -⟩ := h
  obtain ⟨heq, -, hfound⟩ := h1 (by decide)
  refine ⟨by decide, by decide, heq, ?_⟩
  obtain ⟨st2, hdel, -, hI, hTr, -⟩ := hfound [] mAbcd [] (by decide) (by simp) rfl
  have hTr0 : msgsOf (stWith [mAbcd]) "Trash" = [] := by decide
  rw [hTr0] at hTr
  exact ⟨st2, hdel, by simpa using hI, by simpa using hTr⟩

/-! ## C2, C3, C4: list ordering and the date fallback chain -/

theorem safe_date_key_of_chain (now : Int) (s : String) (dt : ParsedDT)
    (h : parseChain s = some dt) : safe_date_key now s = toUTCSeconds dt := by
  rw [safe_date_key_eq_chain, h]

/-- C2: with every date in the folder parsing under the fallback chain,
    `get_messages` yields a permutation of the folder's messages that is
    pairwise ordered by descending normalized (UTC) instant, and a
    `limit` truncates that sorted sequence to its first `limit` entries
    (no `limit` yields all of them). -/
theorem C2_sorted (st : ClientState) (now : Int) (F : String) (limit : Option Nat)
    (hF : F ∈ st.folders)
    (_hparse : ∀ m ∈ msgsOf st F, (parseChain m.date).isSome = true) :
    ∃ L, get_messages st now none F = .ok L ∧
      L.Perm (msgsOf st F) ∧
      L.Pairwise (fun a b => ∀ ka kb, parseChain a.date = some ka →
        parseChain b.date = some kb → toUTCSeconds kb ≤ toUTCSeconds ka) ∧
      get_messages st now limit F
        = .ok (L.take (match limit with | some n => n | none => L.length)) := by
  refine ⟨List.insertionSort (keyGe now) (msgsOf st F), ?_, ?_, ?_, ?_⟩
  · unfold get_messages
    rw [if_pos hF]
  · exact List.perm_insertionSort _ _
  · have hsorted : (List.insertionSort (keyGe now) (msgsOf st F)).Pairwise (keyGe now) :=
      List.sorted_insertionSort (keyGe now) (msgsOf st F)
    refine List.Pairwise.imp ?_ hsorted
    intro a b hab
    intro ka kb hka hkb
    have h1 := safe_date_key_of_chain now a.date ka hka
    have h2 := safe_date_key_of_chain now b.date kb hkb
    unfold keyGe at hab
    rw [h1, h2] at hab
    exact hab
  · unfold get_messages
    rw [if_pos hF]
    cases limit with
    | none =>
      rw [List.take_length]
    | some n => rfl

theorem C2_sorted_witness :
    ("INBOX" ∈ (stWith [mD2, mD3, mD1]).folders) ∧
    (∀ m ∈ msgsOf (stWith [mD2, mD3, mD1]) "INBOX", (parseChain m.date).isSome = true) ∧
    get_messages (stWith [mD2, mD3, mD1]) 0 none "INBOX" = .ok [mD1, mD2, mD3] ∧
    get_messages (stWith [mD2, mD3, mD1]) 0 (some 2) "INBOX" = .ok [mD1, mD2] ∧
    (∃ L, get_messages (stWith [mD2, mD3, mD1]) 0 none "INBOX" = .ok L ∧
      L.Perm (msgsOf (stWith [mD2, mD3, mD1]) "INBOX") ∧
      L.Pairwise (fun a b => ∀ ka kb, parseChain a.date = some ka →
        parseChain b.date = some kb → toUTCSeconds kb ≤ toUTCSeconds ka) ∧
      get_messages (stWith [mD2, mD3, mD1]) 0 (some 2) "INBOX"
        = .ok (L.take (match some 2 with | some n => n | none => L.length))) :=
  ⟨by decide, by decide, by decide, by decide,
    C2_sorted (stWith [mD2, mD3, mD1]) 0 "INBOX" (some 2) (by decide) (by decide)⟩

/-- C3: the sort key of a date string is produced by trying exactly the
    four formats in priority order — full RFC-2822 weekday form with
    numeric offset, the same form with the literal `+0000` suffix, the
    same form with no offset read as UTC, the day-month-year form
    without weekday — the first success winning with its value taken as
    the UTC instant, and the current wall-clock time when all four
    fail. -/
theorem C3_fallback_chain (now : Int) (s : String) :
    (∀ dt, parseFmt1 s = some dt → safe_date_key now s = toUTCSeconds dt) ∧
    (parseFmt1 s = none → ∀ dt, parseFmt2 s = some dt →
      safe_date_key now s = toUTCSeconds dt) ∧
    (parseFmt1 s = none → parseFmt2 s = none → ∀ dt, parseFmt3 s = some dt →
      safe_date_key now s = toUTCSeconds dt) ∧
    (parseFmt1 s = none → parseFmt2 s = none → parseFmt3 s = none → ∀ dt,
      parseFmt4 s = some dt → safe_date_key now s = toUTCSeconds dt) ∧
    (parseFmt1 s = none → parseFmt2 s = none → parseFmt3 s = none → parseFmt4 s = none →
      safe_date_key now s = now) := by
  refine ⟨?_, ?_, ?_, ?_, ?_⟩
  · intro dt h
    unfold safe_date_key
    rw [h]
  · intro h1 dt h
    unfold safe_date_key
    rw [h1, h]
  · intro h1 h2 dt h
    unfold safe_date_key
    rw [h1, h2, h]
  · intro h1 h2 h3 dt h
    unfold safe_date_key
    rw [h1, h2, h3, h]
  · intro h1 h2 h3 h4
    unfold safe_date_key
    rw [h1, h2, h3, h4]

theorem C3_fallback_chain_witness :
    safe_date_key 5 "Mon, 01 Jan 2024 12:00:00 +0530"
      = toUTCSeconds ⟨2024, 1, 1, 12, 0, 0, 19800⟩ ∧
    safe_date_key 5 "Mon, 01 Jan 2024 12:00:00"
      = toUTCSeconds ⟨2024, 1, 1, 12, 0, 0, 0⟩ ∧
    safe_date_key 5 "01 Jan 2024 12:00:00 +0000"
      = toUTCSeconds ⟨2024, 1, 1, 12, 0, 0, 0⟩ ∧
    safe_date_key 5 "garbage" = 5 :=
  ⟨(C3_fallback_chain 5 "Mon, 01 Jan 2024 12:00:00 +0530").1 ⟨2024, 1, 1, 12, 0, 0, 19800⟩ rfl,
   (C3_fallback_chain 5 "Mon, 01 Jan 2024 12:00:00").2.2.1 rfl rfl ⟨2024, 1, 1, 12, 0, 0, 0⟩ rfl,
   (C3_fallback_chain 5 "01 Jan 2024 12:00:00 +0000").2.2.2.1 rfl rfl rfl
     ⟨2024, 1, 1, 12, 0, 0, 0⟩ rfl,
   (C3_fallback_chain 5 "garbage").2.2.2.2 rfl rfl rfl rfl⟩

/-- In a pairwise-ordered list, an element that the order forbids from
    standing left of another stands right of it. -/
theorem pairwise_sublist_pair {α : Type} {R : α → α → Prop} :
    ∀ {L : List α} {a b : α}, L.Pairwise R → a ∈ L → b ∈ L → a ≠ b → ¬ R b a →
      [a, b].Sublist L := by
  intro L
  induction L with
  | nil =>
    intro a b _ ha _ _ _
    simp at ha
  | cons x xs ih =>
    intro a b hpw ha hb hne hnR
    rw [List.pairwise_cons] at hpw
    obtain ⟨hx, hxs⟩ := hpw
    rcases List.mem_cons.mp ha with rfl | haxs
    · have hbxs : b ∈ xs := by
        rcases List.mem_cons.mp hb with rfl | hh
        · exact absurd rfl hne
        · exact hh
      exact List.Sublist.cons₂ a (List.singleton_sublist.mpr hbxs)
    · rcases List.mem_cons.mp hb with rfl | hbxs
      · exact absurd (hx a haxs) hnR
      · exact List.Sublist.cons x (ih hxs haxs hbxs hne hnR)

/-- C4 counterexample: with the wall clock at instant `0`, a folder
    holding a message whose date fails every format and a message dated
    in year 9999 yields the parsed (future-dated) message first: the
    unparsable message is not at the most-recent end, so it does not
    sort before every message whose date did parse. -/
theorem C4_counterexample :
    parseChain "not a date" = none ∧
    (parseChain "Fri, 01 Jan 9999 00:00:00 +0000").isSome = true ∧
    get_messages (stWith [mBadDate, mFuture]) 0 none "INBOX" = .ok [mFuture, mBadDate] :=
  ⟨rfl, rfl, by decide⟩

/-- C4 (amended): a message whose date string fails all parse formats
    does not make `get_messages` raise; it receives the current
    wall-clock time as its sort key and therefore appears before every
    message whose parsed date is strictly earlier than that time (a
    message whose parsed date lies in the call's future can still
    precede it). -/
theorem C4_unparsable_date (st : ClientState) (now : Int) (F : String)
    (hF : F ∈ st.folders) (bad : Message) (hmem : bad ∈ msgsOf st F)
    (hbad : parseChain bad.date = none) :
    ∃ L, get_messages st now none F = .ok L ∧ bad ∈ L ∧
      safe_date_key now bad.date = now ∧
      ∀ m ∈ msgsOf st F, ∀ dt, parseChain m.date = some dt →
        toUTCSeconds dt < now → [bad, m].Sublist L := by
  refine ⟨List.insertionSort (keyGe now) (msgsOf st F), ?_, ?_, ?_, ?_⟩
  · unfold get_messages
    rw [if_pos hF]
  · exact (List.perm_insertionSort (keyGe now) (msgsOf st F)).mem_iff.mpr hmem
  · rw [safe_date_key_eq_chain, hbad]
  · intro m hmmem dt hdt hlt
    have hbadkey : safe_date_key now bad.date = now := by
      rw [safe_date_key_eq_chain, hbad]
    have hmkey : safe_date_key now m.date = toUTCSeconds dt :=
      safe_date_key_of_chain now m.date dt hdt
    have hne : bad ≠ m := by
      intro he
      rw [he, hdt] at hbad
      exact Option.noConfusion hbad
    have hsorted : (List.insertionSort (keyGe now) (msgsOf st F)).Pairwise (keyGe now) :=
      List.sorted_insertionSort (keyGe now) (msgsOf st F)
    refine pairwise_sublist_pair hsorted
      ((List.perm_insertionSort (keyGe now) (msgsOf st F)).mem_iff.mpr hmem)
      ((List.perm_insertionSort (keyGe now) (msgsOf st F)).mem_iff.mpr hmmem)
      hne ?_
    intro hR
    unfold keyGe at hR
    rw [hbadkey, hmkey] at hR
    omega

theorem C4_unparsable_date_witness :
    ("INBOX" ∈ (stWith [mOld, mBadDate]).folders) ∧
    (mBadDate ∈ msgsOf (stWith [mOld, mBadDate]) "INBOX") ∧
    (parseChain mBadDate.date = none) ∧
    (∃ L, get_messages (stWith [mOld, mBadDate]) 1000 none "INBOX" = .ok L ∧
      mBadDate ∈ L ∧ safe_date_key 1000 mBadDate.date = 1000 ∧
      ∀ m ∈ msgsOf (stWith [mOld, mBadDate]) "INBOX", ∀ dt, parseChain m.date = some dt →
        toUTCSeconds dt < 1000 → [mBadDate, m].Sublist L) :=
  ⟨by decide, by decide, rfl,
    C4_unparsable_date (stWith [mOld, mBadDate]) 1000 "INBOX" (by decide) mBadDate
      (by decide) rfl⟩

/-- C8 counterexample: adding two messages with the same id to `INBOX`
    (no uniqueness check exists in `add_message`) reaches a state whose
    `INBOX` in-memory collection holds two messages with id `"a"`. -/
theorem C8_counterexample :
    ∃ st1 st2, add_message initialState mDup "INBOX" = .ok st1 ∧
      add_message st1 mDup "INBOX" = .ok st2 ∧
      Reachable st2 ∧
      (msgsOf st2 "INBOX").map Message.id = ["a", "a"] ∧
      ¬ ((msgsOf st2 "INBOX").map Message.id).Nodup :=
  ⟨_, _, rfl, rfl,
    Reachable.add _ _ mDup "INBOX" (Reachable.add _ _ mDup "INBOX" Reachable.init rfl) rfl,
    by decide, by decide⟩

theorem map_fst_setAssoc {κ β : Type} [DecidableEq κ] (k : κ) (v : β)
    (l : List (κ × β)) :
    (setAssoc k v l).map Prod.fst
      = if k ∈ l.map Prod.fst then l.map Prod.fst else l.map Prod.fst ++ [k] := by
  induction l with
  | nil =>
    rw [setAssoc]
    simp
  | cons kv rest ih =>
    obtain ⟨k2, v2⟩ := kv
    rw [setAssoc]
    by_cases h : k2 = k
    · rw [if_pos h]
      subst h
      simp
    · rw [if_neg h, List.map_cons, List.map_cons, ih]
      by_cases hk : k ∈ rest.map Prod.fst
      · rw [if_pos hk, if_pos (List.mem_cons_of_mem k2 hk)]
      · have hcond : k ∉ k2 :: rest.map Prod.fst := by
          intro hmem
          rcases List.mem_cons.mp hmem with rfl | hm
          · exact h rfl
          · exact hk hm
        rw [if_neg hk, if_neg hcond, List.cons_append]

theorem nodup_keys_setAssoc {κ β : Type} [DecidableEq κ] (k : κ) (v : β)
    (l : List (κ × β)) (h : (l.map Prod.fst).Nodup) :
    ((setAssoc k v l).map Prod.fst).Nodup := by
  rw [map_fst_setAssoc]
  by_cases hk : k ∈ l.map Prod.fst
  · rw [if_pos hk]
    exact h
  · rw [if_neg hk]
    refine List.Nodup.append h (List.nodup_singleton k) ?_
    intro a ha hb
    rw [List.mem_singleton] at hb
    subst hb
    exact hk ha

theorem keys_delAssoc_sublist {κ β : Type} [DecidableEq κ] (k : κ) (l : List (κ × β)) :
    ((delAssoc k l).map Prod.fst).Sublist (l.map Prod.fst) := by
  induction l with
  | nil => simp [delAssoc]
  | cons kv rest ih =>
    obtain ⟨k2, v2⟩ := kv
    rw [delAssoc]
    by_cases h : k2 = k
    · rw [if_pos h, List.map_cons]
      exact List.Sublist.cons k2 (List.Sublist.refl _)
    · rw [if_neg h, List.map_cons, List.map_cons]
      exact List.Sublist.cons₂ k2 ih

theorem disk_nodup_add (st st2 : ClientState) (m : Message) (f : String)
    (hstep : add_message st m f = .ok st2)
    (h : (st.disk.map Prod.fst).Nodup) : (st2.disk.map Prod.fst).Nodup := by
  unfold add_message at hstep
  by_cases hf : f ∈ st.folders
  · rw [if_pos hf] at hstep
    injection hstep with h2
    subst h2
    exact nodup_keys_setAssoc _ _ _ h
  · rw [if_neg hf] at hstep
    exact Except.noConfusion hstep

theorem disk_nodup_create (st st2 : ClientState) (f : String)
    (hstep : create_folder st f = .ok st2)
    (h : (st.disk.map Prod.fst).Nodup) : (st2.disk.map Prod.fst).Nodup := by
  unfold create_folder at hstep
  by_cases hf : f ∈ st.folders
  · rw [if_pos hf] at hstep
    exact Except.noConfusion hstep
  · rw [if_neg hf] at hstep
    injection hstep with h2
    subst h2
    exact h

theorem disk_nodup_move (st st2 : ClientState) (mid s t : String) (b : Bool)
    (hstep : move_message st mid s t = .ok (b, st2))
    (h : (st.disk.map Prod.fst).Nodup) : (st2.disk.map Prod.fst).Nodup := by
  unfold move_message at hstep
  by_cases hs : s ∈ st.folders
  · rw [if_neg (not_not_intro hs)] at hstep
    by_cases ht : t ∈ st.folders
    · rw [if_neg (not_not_intro ht)] at hstep
      cases hpop : popFirstById mid (msgsOf st s) with
      | none =>
        rw [hpop] at hstep
        injection hstep with h2
        injection h2 with hb hst
        subst hst
        exact h
      | some p =>
        obtain ⟨m, rest⟩ := p
        rw [hpop] at hstep
        cases hget : getAssoc (s, mid) st.disk with
        | none =>
          rw [hget] at hstep
          injection hstep with h2
          injection h2 with hb hst
          subst hst
          exact nodup_keys_setAssoc _ _ _ h
        | some d =>
          rw [hget] at hstep
          injection hstep with h2
          injection h2 with hb hst
          subst hst
          exact nodup_keys_setAssoc _ _ _ ((keys_delAssoc_sublist _ _).nodup h)
    · rw [if_pos ht] at hstep
      exact Except.noConfusion hstep
  · rw [if_pos hs] at hstep
    exact Except.noConfusion hstep

theorem disk_nodup_delete (st st2 : ClientState) (mid f : String) (b : Bool)
    (hstep : delete_message st mid f = .ok (b, st2))
    (h : (st.disk.map Prod.fst).Nodup) : (st2.disk.map Prod.fst).Nodup := by
  unfold delete_message at hstep
  by_cases hf : f ∈ st.folders
  · rw [if_neg (not_not_intro hf)] at hstep
    by_cases hT : f = "Trash"
    · rw [if_neg (fun hh => hh hT)] at hstep
      cases hrem : removeFirstById mid (msgsOf st f) with
      | none =>
        rw [hrem] at hstep
        injection hstep with h2
        injection h2 with hb hst
        subst hst
        exact h
      | some rest =>
        rw [hrem] at hstep
        injection hstep with h2
        injection h2 with hb hst
        subst hst
        exact (keys_delAssoc_sublist _ _).nodup h
    · rw [if_pos hT] at hstep
      exact disk_nodup_move st st2 mid f "Trash" b hstep h
  · rw [if_pos hf] at hstep
    exact Except.noConfusion hstep

/-- C8 (amended): in every reachable store state the on-disk store holds
    at most one backing file per (folder, message id): the store indexes
    by filename per folder, so uniqueness holds on disk.  The in-memory
    collection of a folder, by contrast, can hold several messages with
    one id (see the counterexample: `add_message` performs no
    uniqueness check). -/
theorem C8_disk_unique (st : ClientState) (h : Reachable st) :
    (st.disk.map Prod.fst).Nodup := by
  induction h with
  | init => simp [initialState]
  | add st st2 m f _ hstep ih => exact disk_nodup_add st st2 m f hstep ih
  | create st st2 f _ hstep ih => exact disk_nodup_create st st2 f hstep ih
  | move st st2 mid s t b _ hstep ih => exact disk_nodup_move st st2 mid s t b hstep ih
  | delete st st2 mid f b _ hstep ih => exact disk_nodup_delete st st2 mid f b hstep ih

theorem C8_disk_unique_witness :
    ∃ st1, add_message initialState mDup "INBOX" = .ok st1 ∧
      (st1.disk.map Prod.fst).Nodup :=
  ⟨_, rfl, C8_disk_unique _ (Reachable.add _ _ mDup "INBOX" Reachable.init rfl)⟩

/-- C9 counterexample: when the HTML leaf precedes the plain-text leaf,
    the body accumulator is still empty at the HTML part, so the body is
    derived from the HTML part too — not from the plain-text part
    alone. -/
theorem C9_counterexample :
    (extract_content [htmlPartHi, plainPartHello]).1 = "[HTML Content]\n<p>Hi</p>Hello" ∧
    containsSub "<p>Hi</p>".toList
      (extract_content [htmlPartHi, plainPartHello]).1.toList = true ∧
    (extract_content [htmlPartHi, plainPartHello]).1 ≠ "Hello" :=
  ⟨rfl, rfl, by decide⟩

theorem extractLoop_append (l1 l2 : List MimePart) (b : String) (a : List AttachmentRec) :
    extractLoop (l1 ++ l2) b a
      = extractLoop l2 (extractLoop l1 b a).1 (extractLoop l1 b a).2 := by
  induction l1 generalizing b a with
  | nil => rfl
  | cons p rest ih =>
    simp only [List.cons_append, extractLoop, List.append_eq]
    by_cases h1 : partIsAttachment p = true
    · rw [if_pos h1, if_pos h1, ih]
    · rw [if_neg h1, if_neg h1]
      by_cases h2 : (p.content_type == "text/plain") = true
      · rw [if_pos h2, if_pos h2, ih]
      · rw [if_neg h2, if_neg h2]
        by_cases h3 : (p.content_type == "text/html" && b == "") = true
        · rw [if_pos h3, if_pos h3, ih]
        · rw [if_neg h3, if_neg h3, ih]

/-- C9 (amended): an HTML leaf contributes to the body only when the
    body accumulated so far is empty, and then prefixed with the
    `[HTML Content]` marker; when plain-text content has been
    accumulated before the HTML part is reached (in particular in the
    conventional plain-before-HTML ordering), the HTML part contributes
    nothing and the body comes from the plain text alone. -/
theorem C9_html_fallback (pre suf : List MimePart) (ph : MimePart)
    (hhtml : ph.content_type = "text/html") (hatt : partIsAttachment ph = false) :
    ((extract_content pre).1 ≠ "" →
      extract_content (pre ++ ph :: suf) = extract_content (pre ++ suf)) ∧
    ((extract_content pre).1 = "" →
      extract_content (pre ++ ph :: suf)
        = extractLoop suf ("[HTML Content]\n" ++ ph.text) (extract_content pre).2) := by
  have hplain : (ph.content_type == "text/plain") = false := by
    rw [hhtml]
    rfl
  have hc1 : ¬ (partIsAttachment ph = true) := by
    rw [hatt]
    exact Bool.false_ne_true
  have hc2 : ¬ ((ph.content_type == "text/plain") = true) := by
    rw [hplain]
    exact Bool.false_ne_true
  constructor
  · intro hne
    unfold extract_content at hne ⊢
    rw [extractLoop_append, extractLoop_append]
    have hfb : ((extractLoop pre "" []).1 == "") = false := beq_eq_false_iff_ne.mpr hne
    have hc3 : ¬ ((ph.content_type == "text/html"
        && (extractLoop pre "" []).1 == "") = true) := by
      rw [hfb, Bool.and_false]
      exact Bool.false_ne_true
    conv_lhs => rw [extractLoop]
    rw [if_neg hc1, if_neg hc2, if_neg hc3]
  · intro hempty
    unfold extract_content at hempty ⊢
    rw [extractLoop_append]
    have hfb : ((extractLoop pre "" []).1 == "") = true := beq_iff_eq.mpr hempty
    have hhb : (ph.content_type == "text/html") = true := by
      rw [hhtml]
      rfl
    conv_lhs => rw [extractLoop]
    rw [if_neg hc1, if_neg hc2, if_pos (by rw [hfb, hhb, Bool.and_true])]
    rw [hempty]
    rfl

theorem C9_html_fallback_witness :
    (htmlPartHi.content_type = "text/html") ∧ (partIsAttachment htmlPartHi = false) ∧
    ((extract_content [plainPartHello]).1 ≠ "") ∧
    extract_content [plainPartHello, htmlPartHi] = extract_content [plainPartHello] ∧
    (extract_content [plainPartHello]).1 = "Hello" :=
  ⟨rfl, rfl, by decide,
    (C9_html_fallback [plainPartHello] [] htmlPartHi rfl rfl).1 (by decide), rfl⟩

end MyInbox
